import Mathlib

/-!
Shallow embedding of the ATLAS evaluation-aggregation pipeline
(rubric-driven prompt construction, judge-response parsing, and the
statistics engine) together with theorems settling the specification
claims.  Python floats are modelled by rationals, Python dicts by
insertion-ordered association lists, and functions that can raise by
the Except monad.
-/

namespace Atlas

/-- Python sorted(...) on numbers (a stable sort; on rationals any sort
agrees with it pointwise). -/
def pySorted (xs : List ℚ) : List ℚ := List.insertionSort (· ≤ ·) xs

/-- statistics.mean: sum divided by length (callers guard nonemptiness). -/
def pyMean (xs : List ℚ) : ℚ := xs.sum / xs.length

/-- statistics.median from src/src/utils/metrics.py call sites: sort, take
the middle element, or the average of the two middle elements; None models
the StatisticsError raised on an empty list. -/
def pyMedian (xs : List ℚ) : Option ℚ :=
  let s := pySorted xs
  let n := xs.length
  if n = 0 then none
  else if n % 2 = 1 then some (s.getD (n / 2) 0)
  else some ((s.getD (n / 2 - 1) 0 + s.getD (n / 2) 0) / 2)

/-- statistics.variance: the sample variance with denominator n - 1.
Call sites guard n > 1 exactly as the Python code does. -/
def sampleVariance (xs : List ℚ) : ℚ :=
  let m := pyMean xs
  (xs.map (fun x => (x - m) ^ 2)).sum / ((xs.length : ℚ) - 1)

/-- Linear interpolation at fractional rank pos of the sorted data: the
value between the order statistics at the floor of pos and the next index
(clamped to the last index). -/
def interpAt (s : List ℚ) (pos : ℚ) : ℚ :=
  let i : ℕ := (Int.floor pos).toNat
  let lo := s.getD i 0
  let hi := s.getD (min (i + 1) (s.length - 1)) 0
  lo + (pos - (i : ℚ)) * (hi - lo)

/-- np.percentile with the default linear interpolation: the value at
rank q * (n - 1) / 100 of the sorted data; the error mirrors the
exception numpy raises on an empty array. -/
def npPercentile (xs : List ℚ) (q : ℚ) : Except String ℚ :=
  match xs with
  | [] => .error "percentile of empty sequence"
  | _ :: _ => .ok (interpAt (pySorted xs) (q * ((xs.length : ℚ) - 1) / 100))

/-- Python round(x, 2): round to the nearest multiple of 1/100, ties to
even (modelled exactly over the rationals; no theorem sits on a binary
floating-point boundary). -/
def pyRound2 (x : ℚ) : ℚ :=
  let y := x * 100
  let f : ℤ := Int.floor y
  let r := y - (f : ℚ)
  let k : ℤ :=
    if r < 1 / 2 then f
    else if 1 / 2 < r then f + 1
    else if f % 2 = 0 then f else f + 1
  (k : ℚ) / 100

/-- Python max(...) on a list of numbers; the error models the ValueError
raised on an empty sequence. -/
def pyMax : List ℚ → Except String ℚ
  | [] => .error "max of empty sequence"
  | x :: xs => .ok (xs.foldl max x)

/-- s is the exact nonnegative square root of v; used to constrain the
standard deviations that statistics.stdev computes (not rational-computable). -/
def IsSqrt (v s : ℚ) : Prop := 0 ≤ s ∧ s * s = v

/-- Map a fallible function over a list, stopping at the first error, the
way a Python loop propagates the first exception. -/
def mapE {α β : Type} (f : α → Except String β) : List α → Except String (List β)
  | [] => .ok []
  | x :: xs =>
    match f x with
    | .error e => .error e
    | .ok y =>
      match mapE f xs with
      | .error e => .error e
      | .ok ys => .ok (y :: ys)

/-- A Python value as it appears in the dictionaries this pipeline passes
around: a float, a string, a list, or a nested dict (insertion-ordered
association list). -/
inductive PyVal : Type where
  | num (q : ℚ)
  | str (s : String)
  | vlist (xs : List PyVal)
  | vdict (fields : List (String × PyVal))

/-- Association-list lookup, first match wins (Python dict keys are unique). -/
def alistGet? {α : Type} : List (String × α) → String → Option α
  | [], _ => none
  | (k2, v) :: rest, k => if k2 = k then some v else alistGet? rest k

/-- d.get(k, dflt) on a Python dict. -/
def pyGetD (d : List (String × PyVal)) (k : String) (dflt : PyVal) : PyVal :=
  (alistGet? d k).getD dflt

/-- Using a Python value as a number; a non-numeric value makes the
downstream arithmetic raise, modelled as an error. -/
def pyNumE : PyVal → Except String ℚ
  | .num q => .ok q
  | _ => .error "unsupported operand type"

/-- The score-list extraction both MetricsCalculator.aggregate_scores and
calculate_confidence_and_reliability perform:
scores = [eval.get(metric + "_score", 0) for eval in evaluations]. -/
def metricScores (evaluations : List (List (String × PyVal))) (metric : String) :
    Except String (List ℚ) :=
  mapE (fun e => pyNumE (pyGetD e (metric ++ "_score") (.num 0))) evaluations

/-- score_range of a metric configuration: keys "min" and "max". -/
structure ScoreRange where
  lo : ℚ
  hi : ℚ
deriving DecidableEq

/-- One entry of metrics_pool.json: description, optional score_range,
optional scoring_criteria (an insertion-ordered mapping whose keys are the
admissible scores, kept here already parsed as numbers). -/
structure MetricCfg where
  description : String
  score_range : Option ScoreRange
  scoring_criteria : Option (List (ℚ × String))
deriving DecidableEq

/-- One entry of task_pool.json: system prompt and the insertion-ordered
metric-to-weight mapping. -/
structure TaskCfg where
  system_prompt : String
  weightages : List (String × ℚ)
deriving DecidableEq

/-- The two JSON pools the ConfigManager and MetricsCalculator load at
startup; metrics_pool is grouped, and lookups scan the groups in order. -/
structure Pools where
  task_types : List (String × TaskCfg)
  metric_groups : List (String × List (String × MetricCfg))

/-- ConfigManager.get_task_config / the task_pool lookup in
MetricsCalculator: unknown task types raise ValueError. -/
def get_task_config (p : Pools) (task_type : String) : Except String TaskCfg :=
  match alistGet? p.task_types task_type with
  | some tc => .ok tc
  | none => .error ("Unknown task type: " ++ task_type)

/-- MetricsCalculator.get_metrics_for_task: the weightage keys of the task,
in insertion order. -/
def get_metrics_for_task (p : Pools) (task_type : String) : Except String (List String) :=
  match get_task_config p task_type with
  | .error e => .error e
  | .ok tc => .ok (tc.weightages.map (fun kv => kv.1))

/-- Scan the metric groups in order for the first one containing the metric. -/
def findInGroups : List (String × List (String × MetricCfg)) → String → Option MetricCfg
  | [], _ => none
  | (_, g) :: rest, m =>
    match alistGet? g m with
    | some cfg => some cfg
    | none => findInGroups rest m

/-- ConfigManager.get_metrics_config: first group wins, unknown metrics
raise ValueError. -/
def get_metrics_config (p : Pools) (metric : String) : Except String MetricCfg :=
  match findInGroups p.metric_groups metric with
  | some cfg => .ok cfg
  | none => .error ("Unknown metric: " ++ metric)

/-- MetricsCalculator.get_max_score: the largest scoring_criteria key of the
metric; a metric without scoring_criteria raises KeyError, an empty criteria
mapping makes max() raise, an absent metric raises ValueError. -/
def get_max_score (p : Pools) (metric : String) : Except String ℚ :=
  match findInGroups p.metric_groups metric with
  | none => .error ("Metric " ++ metric ++ " not found in metrics pool")
  | some cfg =>
    match cfg.scoring_criteria with
    | none => .error "KeyError: scoring_criteria"
    | some cs => pyMax (cs.map (fun kv => kv.1))

/-- MetricsCalculator.normalize_score: score divided by the largest
criteria key (note: not a min-max rescaling); division by zero raises. -/
def normalize_score (p : Pools) (score : ℚ) (metric : String) : Except String ℚ :=
  match get_max_score p metric with
  | .error e => .error e
  | .ok mx => if mx = 0 then .error "float division by zero" else .ok (score / mx)

/-- The per-metric record aggregate_scores stores. -/
structure MetricAggregate where
  score : ℚ
  raw_scores : List ℚ
  filtered_scores : List ℚ
  variance : ℚ
  justifications : List PyVal
  normalized_score : ℚ
  weighted_score : ℚ
  weight : ℚ

/-- The IQR outlier filter of aggregate_scores: Q1/Q3 by linear
interpolation, fences at 1.5 times the IQR. -/
def iqrFilter (scores : List ℚ) : Except String (List ℚ) :=
  match npPercentile scores 25, npPercentile scores 75 with
  | .ok q1, .ok q3 =>
    let iqr := q3 - q1
    .ok (scores.filter (fun s => decide (q1 - 1.5 * iqr ≤ s) && decide (s ≤ q3 + 1.5 * iqr)))
  | .error e, _ => .error e
  | _, .error e => .error e

/-- The body of the per-metric loop of MetricsCalculator.aggregate_scores:
extract the flat scores, IQR-filter them, take the median of the filtered
list (0 when it is empty, with no issue recorded), normalize and weight. -/
def aggregateMetric (p : Pools) (evaluations : List (List (String × PyVal)))
    (weight : ℚ) (metric : String) : Except String MetricAggregate :=
  match metricScores evaluations metric with
  | .error e => .error e
  | .ok scores =>
    let justifications := evaluations.map (fun e => pyGetD e (metric ++ "_justification") (.str ""))
    match iqrFilter scores with
    | .error e => .error e
    | .ok filtered =>
      let median_score := match pyMedian filtered with | some m => m | none => 0
      match normalize_score p median_score metric with
      | .error e => .error e
      | .ok normalized =>
        .ok { score := median_score, raw_scores := scores, filtered_scores := filtered,
              variance := if 1 < filtered.length then sampleVariance filtered else 0,
              justifications := justifications.take 3,
              normalized_score := normalized,
              weighted_score := normalized * weight, weight := weight }

/-- MetricsCalculator.aggregate_scores: the per-metric records in weightage
order, paired with total_weighted_score, which is the plain sum of the
weighted scores. -/
def aggregate_scores (p : Pools) (evaluations : List (List (String × PyVal)))
    (task_type : String) : Except String (List (String × MetricAggregate) × ℚ) :=
  match get_task_config p task_type with
  | .error e => .error e
  | .ok tc =>
    match mapE (fun mw => (aggregateMetric p evaluations mw.2 mw.1).map (fun a => (mw.1, a)))
        tc.weightages with
    | .error e => .error e
    | .ok entries => .ok (entries, (entries.map (fun kv => kv.2.weighted_score)).sum)

/-- The variance list calculate_confidence_and_reliability accumulates: the
sample variance of each metric whose flat score list has more than one
element (the list length is the number of evaluations). -/
def confVariances (p : Pools) (evaluations : List (List (String × PyVal)))
    (task_type : String) : Except String (List ℚ) :=
  match get_metrics_for_task p task_type with
  | .error e => .error e
  | .ok metrics =>
    match mapE (metricScores evaluations) metrics with
    | .error e => .error e
    | .ok scoreLists =>
      .ok ((scoreLists.filter (fun l => decide (1 < l.length))).map sampleVariance)

/-- MetricsCalculator.calculate_confidence_and_reliability.
statistics.stdev is the nonnegative square root of the sample variance and
is not computable on the rationals, so the list of per-metric standard
deviations is taken as an explicit argument; every theorem about this
function constrains std_devs by List.Forall₂ IsSqrt against confVariances
(the two lists are accumulated in the same loop in the Python code). -/
def calculate_confidence_and_reliability (p : Pools)
    (evaluations : List (List (String × PyVal))) (task_type : String)
    (std_devs : List ℚ) : Except String (ℚ × ℚ) :=
  match confVariances p evaluations task_type with
  | .error e => .error e
  | .ok variances =>
    let avg_variance := if variances.isEmpty then 0 else pyMean variances
    let confidence := 1 / (1 + avg_variance)
    match get_metrics_for_task p task_type with
    | .error e => .error e
    | .ok metrics =>
      match mapE (get_max_score p) metrics with
      | .error e => .error e
      | .ok maxima =>
        match pyMax maxima with
        | .error e => .error e
        | .ok max_possible_std =>
          if max_possible_std = 0 then .error "float division by zero"
          else
            let avg_std_dev := if std_devs.isEmpty then 0 else pyMean std_devs
            .ok (pyRound2 confidence, pyRound2 (1 - avg_std_dev / max_possible_std))

/-- Evaluator._calculate_final_score: round the aggregated
total_weighted_score to 2 decimals; this rounded value is what evaluate()
stores under final_score in the returned result. -/
def calculate_final_score (aggregated : List (String × MetricAggregate) × ℚ) : ℚ :=
  pyRound2 aggregated.2

/-- Python str.upper on the ASCII metric names used in the tag patterns
(written over the character list so that it evaluates structurally). -/
def pyUpper (s : String) : String := String.mk (s.data.map Char.toUpper)

/-- The characters the regex class backslash-s matches. -/
def isPySpace (c : Char) : Bool :=
  c == ' ' || c == '\t' || c == '\n' || c == '\r' || c == '\x0b' || c == '\x0c'

/-- Value of a run of decimal digit characters. -/
def digitsVal (ds : List Char) : ℕ :=
  ds.foldl (fun a c => 10 * a + (c.toNat - 48)) 0

/-- Value of the fractional digit run after the decimal point. -/
def fracVal (ds : List Char) : ℚ :=
  (digitsVal ds : ℚ) / (10 : ℚ) ^ ds.length

/-- Does pattern pat match at the start of s (plain literal match)? -/
def startsWith : List Char → List Char → Bool
  | [], _ => true
  | _ :: _, [] => false
  | a :: as2, b :: bs => a == b && startsWith as2 bs

/-- The tail of the score regex after the literal tag: backslash-s star then
one or more digits with an optional fraction, greedy, exactly as
r"\s*(\d+(?:\.\d+)?)" matches; returns the float value of group 1. -/
def matchNumAt (s : List Char) : Option ℚ :=
  let s1 := s.dropWhile isPySpace
  let ds := s1.takeWhile Char.isDigit
  if ds.isEmpty then none
  else
    match s1.drop ds.length with
    | '.' :: r2 =>
      let fs := r2.takeWhile Char.isDigit
      if fs.isEmpty then some ((digitsVal ds : ℚ))
      else some ((digitsVal ds : ℚ) + fracVal fs)
    | _ => some ((digitsVal ds : ℚ))

/-- re.search of the score pattern: the leftmost position where the literal
tag followed by optional whitespace and a number matches. -/
def searchScoreTag (tag : List Char) : List Char → Option ℚ
  | [] => none
  | c :: rest =>
    match (if startsWith tag (c :: rest) then matchNumAt ((c :: rest).drop tag.length) else none) with
    | some q => some q
    | none => searchScoreTag tag rest

/-- The literal tag the parser searches for: METRIC.upper() + "_SCORE:". -/
def scoreTag (metric : String) : List Char :=
  (pyUpper metric).data ++ "_SCORE:".data

/-- LLMResponseParser._extract_score (both variants are identical): the
first tag match, or 0.0 when the pattern is absent — the raised ValueError
is caught inside the function itself, which logs and returns 0.0, so no
validation issue reaches the caller. -/
def extract_score (response : String) (metric : String) : ℚ :=
  match searchScoreTag (scoreTag metric) response.data with
  | some q => q
  | none => 0

/-- _validate_score of src/src/utils/llm_parser.py: clamp to the range;
out-of-range scores only produce log warnings, never validation issues. -/
def validate_score_utils (score min_score max_score : ℚ) : ℚ :=
  if score < min_score then min_score
  else if max_score < score then max_score
  else score

/-- _validate_score of src/src/atlas/utils/llm_parser.py: clamp to the
range and append a validation issue when out of range (the numeric
interpolations of the Python f-string are omitted from the message text;
no claim depends on the exact wording). -/
def validate_score_atlas (score min_score max_score : ℚ) (metric : String)
    (issues : List String) : ℚ × List String :=
  if score < min_score then
    (min_score, issues ++ ["Score for " ++ metric ++ " below minimum, using minimum"])
  else if max_score < score then
    (max_score, issues ++ ["Score for " ++ metric ++ " above maximum, using maximum"])
  else (score, issues)

/-- The fold Python min(key=...) performs: the accumulator is replaced
only when a strictly smaller key appears, so the first minimum wins. -/
def minByDistFold (score a : ℚ) (ks : List ℚ) : ℚ :=
  ks.foldl (fun acc y => if |y - score| < |acc - score| then y else acc) a

/-- Python min(valid_scores, key=lambda x: abs(x - score)): the first
element of the list attaining the minimal distance (min keeps the earlier
element on ties); none on an empty list, where min raises. -/
def pyMinByDist (score : ℚ) : List ℚ → Option ℚ
  | [] => none
  | x :: xs => some (minByDistFold score x xs)

/-- _validate_against_criteria of src/src/atlas/utils/llm_parser.py: exact
criteria scores pass through silently; otherwise snap to the closest
criteria key and append an issue; none models the ValueError min() raises
on an empty criteria mapping. -/
def validate_against_criteria (score : ℚ) (criteriaKeys : List ℚ) (metric : String)
    (issues : List String) : Option (ℚ × List String) :=
  if score ∈ criteriaKeys then some (score, issues)
  else
    match pyMinByDist score criteriaKeys with
    | none => none
    | some closest =>
      some (closest, issues ++ ["Score for " ++ metric ++ " not in valid scores, using closest value"])

/-- _normalize_score (identical in both parser variants): min-max rescale,
with the degenerate equal-range case mapped to 1.0 or 0.0. -/
def normalize_score_range (score min_score max_score : ℚ) : ℚ :=
  if max_score = min_score then (if max_score ≤ score then 1 else 0)
  else (score - min_score) / (max_score - min_score)

/-- The score_range default used by both parsers:
metric_config.get("score_range", min 0 max 10). -/
def defaultRange : ScoreRange := ⟨0, 10⟩

/-- Accumulator for the per-metric parsing loop (the result dict under
construction). -/
structure ParseState where
  raw : List (String × ℚ)
  norm : List (String × ℚ)
  issues : List String
  total_weighted : ℚ
  total_weight : ℚ

/-- One iteration of the per-metric loop of parse_evaluation_response in
src/src/atlas/utils/llm_parser.py, with include_justification = False: on
any per-metric exception (unknown metric, empty criteria) record a failure
issue and store 0 for the metric; otherwise extract, snap against the
criteria when present, clamp, normalize, and accumulate the weighted sums. -/
def atlasStep (p : Pools) (response : String) (st : ParseState) (mw : String × ℚ) : ParseState :=
  let metric := mw.1
  let weight := mw.2
  match findInGroups p.metric_groups metric with
  | none =>
    { st with issues := st.issues ++ ["Failed to process metric " ++ metric],
              raw := st.raw ++ [(metric, 0)], norm := st.norm ++ [(metric, 0)] }
  | some cfg =>
    let range := cfg.score_range.getD defaultRange
    let score0 := extract_score response metric
    let snapped : Option (ℚ × List String) :=
      match cfg.scoring_criteria with
      | none => some (score0, st.issues)
      | some cs => validate_against_criteria score0 (cs.map (fun kv => kv.1)) metric st.issues
    match snapped with
    | none =>
      { st with issues := st.issues ++ ["Failed to process metric " ++ metric],
                raw := st.raw ++ [(metric, 0)], norm := st.norm ++ [(metric, 0)] }
    | some (score1, issues1) =>
      let s2i := validate_score_atlas score1 range.lo range.hi metric issues1
      let normalized := normalize_score_range s2i.1 range.lo range.hi
      { raw := st.raw ++ [(metric, s2i.1)], norm := st.norm ++ [(metric, normalized)],
        issues := s2i.2,
        total_weighted := st.total_weighted + normalized * weight,
        total_weight := st.total_weight + weight }

/-- The metadata block the atlas parser appends to its result. -/
structure ParseMetadata where
  num_metrics_processed : ℕ
  num_validation_issues : ℕ
  total_weight : ℚ
deriving DecidableEq

/-- The result dict of the atlas parse_evaluation_response (without the
justifications key, include_justification = False). -/
structure AtlasResult where
  raw_scores : List (String × ℚ)
  normalized_scores : List (String × ℚ)
  validation_issues : List String
  total_weighted_score : ℚ
  metadata : ParseMetadata
deriving DecidableEq

/-- parse_evaluation_response of src/src/atlas/utils/llm_parser.py with
include_justification = False: per-metric loop over the weightages, then
total_weighted_score = accumulated weighted sum / accumulated weight (0
when no metric was processed). -/
def parse_evaluation_response_atlas (p : Pools) (task_type : String) (response : String) :
    Except String AtlasResult :=
  match get_task_config p task_type with
  | .error e => .error ("Failed to parse evaluation response: " ++ e)
  | .ok tc =>
    let st := tc.weightages.foldl (atlasStep p response) ⟨[], [], [], 0, 0⟩
    .ok { raw_scores := st.raw, normalized_scores := st.norm,
          validation_issues := st.issues,
          total_weighted_score :=
            if 0 < st.total_weight then st.total_weighted / st.total_weight else 0,
          metadata := { num_metrics_processed := tc.weightages.length,
                        num_validation_issues := st.issues.length,
                        total_weight := st.total_weight } }

/-- Accumulator for the utils parser loop, which also collects
justifications. -/
structure UtilsState where
  raw : List (String × ℚ)
  norm : List (String × ℚ)
  issues : List String
  justs : List (String × String)
  total_weighted : ℚ
  total_weight : ℚ

/-- One iteration of the per-metric loop of parse_evaluation_response in
src/src/utils/llm_parser.py with include_justification = True.  The
justification text produced by the _JUSTIFICATION regex never influences
any score field, so its extractor is abstracted as the justFn parameter
(every theorem holds for all justFn).  A missing score tag makes
_extract_metric_data return (0.0, error text) — the exception is swallowed
inside it — and the utils _validate_score records no issues at all, so the
only per-metric exception reaching the loop is an unknown metric, which
appends an issue and stores nothing for the metric. -/
def utilsStep (p : Pools) (justFn : String → String → String) (response : String)
    (st : UtilsState) (mw : String × ℚ) : UtilsState :=
  let metric := mw.1
  let weight := mw.2
  match findInGroups p.metric_groups metric with
  | none => { st with issues := st.issues ++ ["Error processing metric " ++ metric] }
  | some cfg =>
    let range := cfg.score_range.getD defaultRange
    let score0 := extract_score response metric
    let just := justFn response metric
    let score1 := validate_score_utils score0 range.lo range.hi
    let normalized := normalize_score_range score1 range.lo range.hi
    { raw := st.raw ++ [(metric, score1)], norm := st.norm ++ [(metric, normalized)],
      issues := st.issues, justs := st.justs ++ [(metric, just)],
      total_weighted := st.total_weighted + normalized * weight,
      total_weight := st.total_weight + weight }

/-- The result dict of the utils parse_evaluation_response (with the
justifications key, include_justification = True). -/
structure UtilsResult where
  raw_scores : List (String × ℚ)
  normalized_scores : List (String × ℚ)
  validation_issues : List String
  justifications : List (String × String)
  total_weighted_score : ℚ

/-- parse_evaluation_response of src/src/utils/llm_parser.py with the
default include_justification = True, as Evaluator._get_llm_evaluation
calls it. -/
def parse_evaluation_response_utils (p : Pools) (justFn : String → String → String)
    (task_type : String) (response : String) : Except String UtilsResult :=
  match get_task_config p task_type with
  | .error e => .error ("Failed to parse evaluation response: " ++ e)
  | .ok tc =>
    let st := tc.weightages.foldl (utilsStep p justFn response) ⟨[], [], [], [], 0, 0⟩
    .ok { raw_scores := st.raw, normalized_scores := st.norm,
          validation_issues := st.issues, justifications := st.justs,
          total_weighted_score :=
            if 0 < st.total_weight then st.total_weighted / st.total_weight else 0 }

/-- The dictionary layout of the utils parser result, with exactly the keys
the Python code inserts: raw_scores, normalized_scores, validation_issues,
justifications, total_weighted_score.  Evaluator.evaluate appends these
dicts to all_evaluations and hands them to the MetricsCalculator. -/
def UtilsResult.toDict (r : UtilsResult) : List (String × PyVal) :=
  [("raw_scores", .vdict (r.raw_scores.map (fun kv => (kv.1, PyVal.num kv.2)))),
   ("normalized_scores", .vdict (r.normalized_scores.map (fun kv => (kv.1, PyVal.num kv.2)))),
   ("validation_issues", .vlist (r.validation_issues.map PyVal.str)),
   ("justifications", .vdict (r.justifications.map (fun kv => (kv.1, PyVal.str kv.2)))),
   ("total_weighted_score", PyVal.num r.total_weighted_score)]

/-- The batch Evaluator.evaluate builds: one parsed dict per judge
response (the judge calls themselves are external). -/
def evaluateBatch (p : Pools) (justFn : String → String → String) (task_type : String)
    (responses : List String) : Except String (List (List (String × PyVal))) :=
  mapE (fun r => (parse_evaluation_response_utils p justFn task_type r).map UtilsResult.toDict)
    responses

/-- The output-template section rendered by PromptGenerator.generate_prompt
(src/src/atlas/evaluator/prompt_generator.py, lines 52-56) with
include_justification = False: one tagged score line per metric, in
weightage order. -/
def outputTemplate (metrics : List String) : String :=
  String.join (metrics.map (fun m => pyUpper m ++ "_SCORE: [score between 0-10]\n"))

/-- A response following that exact tag template with score literals
injected in place of the bracket placeholders. -/
def injectedResponse (metricsAndLits : List (String × List Char)) : String :=
  String.join (metricsAndLits.map (fun ml => pyUpper ml.1 ++ "_SCORE: " ++ String.mk ml.2 ++ "\n"))

/-! Concrete pools and batches used by the claim theorems, witnesses and
counterexamples. -/

/-- Pool for the IQR scenario: one conversation metric weighted 1.0. -/
def pools3 : Pools :=
  { task_types := [("conversation_evaluation",
      { system_prompt := "sp", weightages := [("coherence", 1)] })],
    metric_groups := [("conversation_metrics",
      [("coherence", { description := "d", score_range := some ⟨5, 25⟩,
                       scoring_criteria := some [(5, "poor"), (25, "great")] })])] }

/-- Batch carrying the raw coherence scores 23, 24, 22, 25, 15. -/
def batch3 : List (List (String × PyVal)) :=
  [[("coherence_score", .num 23)], [("coherence_score", .num 24)],
   [("coherence_score", .num 22)], [("coherence_score", .num 25)],
   [("coherence_score", .num 15)]]

/-- Pool with a single metric whose largest criteria score is 3. -/
def pools4 : Pools :=
  { task_types := [("t4", { system_prompt := "sp", weightages := [("a4", 1)] })],
    metric_groups := [("g4", [("a4", { description := "d", score_range := some ⟨0, 3⟩,
                                       scoring_criteria := some [(3, "x")] })])] }

/-- One evaluation scoring a4 at 1, so the aggregate total is 1/3. -/
def batch4 : List (List (String × PyVal)) := [[("a4_score", .num 1)]]

/-- Pool with a single metric whose score range is -5..5 and no criteria. -/
def pools5 : Pools :=
  { task_types := [("t5", { system_prompt := "sp", weightages := [("m5", 1)] })],
    metric_groups := [("g5", [("m5", { description := "d", score_range := some ⟨-5, 5⟩,
                                       scoring_criteria := none })])] }

/-- Pool with a single metric whose score range is 2..10 and no criteria. -/
def pools5w : Pools :=
  { task_types := [("t5w", { system_prompt := "sp", weightages := [("m5w", 1)] })],
    metric_groups := [("g5w", [("m5w", { description := "d", score_range := some ⟨2, 10⟩,
                                         scoring_criteria := none })])] }

/-- Pool with a metric of range 2..10 whose criteria keys are 2 and 10. -/
def pools6 : Pools :=
  { task_types := [("t6", { system_prompt := "sp", weightages := [("m6", 1)] })],
    metric_groups := [("g6", [("m6", { description := "d", score_range := some ⟨2, 10⟩,
                                       scoring_criteria := some [(2, "lo"), (10, "hi")] })])] }

/-- Pool with one metric of range 1..5 whose criteria keys are 1, 3, 5. -/
def pools7 : Pools :=
  { task_types := [("t7", { system_prompt := "sp", weightages := [("a7", 1)] })],
    metric_groups := [("g7",
      [("a7", { description := "d", score_range := some ⟨1, 5⟩,
                scoring_criteria := some [(1, "x"), (3, "y"), (5, "z")] })])] }

/-- Three evaluations scoring a7 at 1, 3, 5 (sample variance 4, stdev 2). -/
def batch7 : List (List (String × PyVal)) :=
  [[("a7_score", .num 1)], [("a7_score", .num 3)], [("a7_score", .num 5)]]

/-- Pool whose metric lists its criteria keys in the order 10, 0. -/
def pools8 : Pools :=
  { task_types := [("t8", { system_prompt := "sp", weightages := [("m8", 1)] })],
    metric_groups := [("g8", [("m8", { description := "d", score_range := some ⟨0, 10⟩,
                                       scoring_criteria := some [(10, "hi"), (0, "lo")] })])] }

/-- Pool with one metric whose single criteria key is 10. -/
def pools9 : Pools :=
  { task_types := [("t9", { system_prompt := "sp", weightages := [("a9", 1)] })],
    metric_groups := [("g9", [("a9", { description := "d", score_range := some ⟨0, 10⟩,
                                       scoring_criteria := some [(10, "x")] })])] }

/-- Batch with three identical a9 scores: per-metric variance 0. -/
def batch9a : List (List (String × PyVal)) :=
  [[("a9_score", .num 0)], [("a9_score", .num 0)], [("a9_score", .num 0)]]

/-- Batch with a9 scores 0, 0.03, 0.06: per-metric variance 9/10000. -/
def batch9b : List (List (String × PyVal)) :=
  [[("a9_score", .num 0)], [("a9_score", .num (3/100))], [("a9_score", .num (6/100))]]

/-- Pool whose metric has criteria keys 1, 3, 5 inside range 0..10. -/
def pools10 : Pools :=
  { task_types := [("t10", { system_prompt := "sp", weightages := [("m10", 1)] })],
    metric_groups := [("g10",
      [("m10", { description := "d", score_range := some ⟨0, 10⟩,
                 scoring_criteria := some [(1, "a"), (3, "b"), (5, "c")] })])] }

/-- Pool whose metric has range 0..10 and no criteria (round trip holds). -/
def pools10w : Pools :=
  { task_types := [("t10w", { system_prompt := "sp", weightages := [("m10w", 1)] })],
    metric_groups := [("g10w", [("m10w", { description := "d", score_range := some ⟨0, 10⟩,
                                           scoring_criteria := none })])] }

/-- The per-metric record aggregate_scores produces for pools4/batch4. -/
def agg4 : MetricAggregate :=
  { score := 1, raw_scores := [1], filtered_scores := [1], variance := 0,
    justifications := [PyVal.str ""], normalized_score := 1 / 3,
    weighted_score := 1 / 3, weight := 1 }

/-- Pool for the evaluator pipeline: one coherence metric, range 0..10. -/
def pools2 : Pools :=
  { task_types := [("t2", { system_prompt := "sp", weightages := [("coherence", 1)] })],
    metric_groups := [("g2", [("coherence", { description := "d", score_range := some ⟨0, 10⟩,
                                              scoring_criteria := none })])] }

/-- The batch Evaluator.evaluate hands to the MetricsCalculator for the
single response "COHERENCE_SCORE: 7": the parser nests the extracted 7
under raw_scores, and no flat coherence_score key exists. -/
def batch2 : List (List (String × PyVal)) :=
  [[("raw_scores", .vdict [("coherence", .num 7)]),
    ("normalized_scores", .vdict [("coherence", .num (7/10))]),
    ("validation_issues", .vlist []),
    ("justifications", .vdict [("coherence", .str "")]),
    ("total_weighted_score", .num (7/10))]]

/-! Helper lemmas for concrete evaluations. -/

theorem batch3_scores : metricScores batch3 "coherence" = .ok [23, 24, 22, 25, 15] := by
  simp [metricScores, batch3, mapE, pyGetD, alistGet?, pyNumE]

theorem iqr3 : iqrFilter [23, 24, 22, 25, 15] = .ok [23, 24, 22, 25] := by
  norm_num [iqrFilter, npPercentile, interpAt, pySorted, List.insertionSort,
    List.orderedInsert] <;> (try simp) <;> norm_num

theorem med3 : pyMedian [23, 24, 22, 25] = some (47 / 2) := by
  norm_num [pyMedian, pySorted, List.insertionSort, List.orderedInsert]

theorem var3 : sampleVariance [23, 24, 22, 25] = 5 / 3 := by
  norm_num [sampleVariance, pyMean]

theorem norm3 : normalize_score pools3 (47 / 2) "coherence" = .ok (47 / 50) := by
  norm_num [normalize_score, get_max_score, findInGroups, alistGet?, pools3, pyMax]

theorem task3 : get_task_config pools3 "conversation_evaluation" =
    .ok { system_prompt := "sp", weightages := [("coherence", 1)] } := by
  simp [get_task_config, pools3, alistGet?]

/-- C3: on the raw scores 23, 24, 22, 25, 15 the linear-interpolation
percentiles give Q1 = 22 and Q3 = 24, the 1.5-IQR fences are 19 and 27,
the filtered list is 23, 24, 22, 25 (15 excluded), the median of the
filtered list is 23.5, and the variance stored by aggregate_scores is the
sample variance 5/3 of the four retained values. -/
theorem claim_C3_iqr_scenario :
    npPercentile [23, 24, 22, 25, 15] 25 = .ok 22 ∧
    npPercentile [23, 24, 22, 25, 15] 75 = .ok 24 ∧
    (22 : ℚ) - 1.5 * (24 - 22) = 19 ∧ (24 : ℚ) + 1.5 * (24 - 22) = 27 ∧
    iqrFilter [23, 24, 22, 25, 15] = .ok [23, 24, 22, 25] ∧
    pyMedian [23, 24, 22, 25] = some (47 / 2) ∧
    sampleVariance [23, 24, 22, 25] = 5 / 3 ∧
    (aggregate_scores pools3 batch3 "conversation_evaluation").map
        (fun a => a.1.map (fun kv => (kv.1, kv.2.score, kv.2.filtered_scores, kv.2.variance))) =
      .ok [("coherence", 47 / 2, [23, 24, 22, 25], 5 / 3)] := by
  refine ⟨?_, ?_, by norm_num, by norm_num, iqr3, med3, var3, ?_⟩
  · norm_num [npPercentile, interpAt, pySorted, List.insertionSort, List.orderedInsert]
  · norm_num [npPercentile, interpAt, pySorted, List.insertionSort, List.orderedInsert] <;>
      (try simp) <;> norm_num
  · simp [aggregate_scores, task3, mapE, aggregateMetric, batch3_scores, iqr3, med3, var3,
      norm3, Except.map]

/-- C5 as stated is false: with score range -5..5 and a response carrying
no tagged score line, the atlas parser stores 0 (not the range minimum -5)
for the metric and records no validation issue at all. -/
theorem counter_C5_missing_tag_no_issue :
    (parse_evaluation_response_atlas pools5 "t5" "").map
        (fun r => (r.raw_scores, r.validation_issues)) =
      .ok ([("m5", 0)], []) ∧ (0 : ℚ) ≠ -5 := by
  constructor
  · simp [parse_evaluation_response_atlas, get_task_config, pools5, alistGet?, atlasStep,
      findInGroups, extract_score, scoreTag, pyUpper, searchScoreTag,
      validate_score_atlas, normalize_score_range, Except.map] <;> norm_num
  · norm_num

/-- C5 amended, scoped to the atlas parser on a single-metric task whose
metric defines no scoring_criteria: when the tagged score line is absent,
_extract_score swallows its own exception and yields 0.0 with no issue of
its own; the subsequent range clamp stores the range minimum with a
below-minimum issue exactly when 0 < min (the maximum with an
above-maximum issue when max < 0), and otherwise stores 0 with no issue,
so the claimed minimum-plus-issue behavior arises only when min > 0; the
sample as a whole still parses.  Outside this scope the original claim
fails differently: with scoring_criteria present the defaulted 0 is first
snapped to the nearest criteria key, recording a snap issue before any
clamp runs, and the utils variant records no range issues at all (its
_validate_score only logs warnings). -/
theorem claim_C5_missing_tag (p : Pools) (task sp m d : String) (w lo hi : ℚ) (response : String)
    (htask : get_task_config p task = .ok { system_prompt := sp, weightages := [(m, w)] })
    (hcfg : findInGroups p.metric_groups m =
      some { description := d, score_range := some ⟨lo, hi⟩, scoring_criteria := none })
    (hmiss : searchScoreTag (scoreTag m) response.data = none) :
    (parse_evaluation_response_atlas p task response).map
        (fun r => (r.raw_scores, r.validation_issues)) =
      .ok ([(m, if 0 < lo then lo else if hi < 0 then hi else 0)],
        if 0 < lo then ["Score for " ++ m ++ " below minimum, using minimum"]
        else if hi < 0 then ["Score for " ++ m ++ " above maximum, using maximum"]
        else []) := by
  have hex : extract_score response m = 0 := by simp [extract_score, hmiss]
  simp only [parse_evaluation_response_atlas, htask, List.foldl, atlasStep, hcfg, hex,
    validate_score_atlas, Option.getD, Except.map]
  split_ifs <;> simp_all

/-- Witness for C5 amended: range 2..10 and an empty response store the
minimum 2 and record the below-minimum issue. -/
theorem claim_C5_missing_tag_witness :
    (parse_evaluation_response_atlas pools5w "t5w" "").map
        (fun r => (r.raw_scores, r.validation_issues)) =
      .ok ([("m5w", 2)], ["Score for m5w below minimum, using minimum"]) := by
  have h := claim_C5_missing_tag pools5w "t5w" "sp" "m5w" "d" 1 2 10 ""
    (by simp [get_task_config, pools5w, alistGet?])
    (by simp [findInGroups, pools5w, alistGet?])
    (by simp [searchScoreTag])
  rw [h]
  norm_num
  decide

/-- C6 as stated is false of the aggregator path: for the metric of range
2..10 (criteria keys 2 and 10), MetricsCalculator.normalize_score divides
by the largest criteria key, so the range minimum 2 normalizes to 1/5
instead of (2 - 2) / (10 - 2) = 0. -/
theorem counter_C6_aggregator_normalize :
    get_metrics_config pools6 "m6" =
      .ok { description := "d", score_range := some ⟨2, 10⟩,
            scoring_criteria := some [(2, "lo"), (10, "hi")] } ∧
    normalize_score pools6 2 "m6" = .ok (1 / 5) ∧
    ((2 : ℚ) - 2) / (10 - 2) = 0 ∧ (1 / 5 : ℚ) ≠ 0 := by
  refine ⟨by simp [get_metrics_config, findInGroups, pools6, alistGet?], ?_, by norm_num,
    by norm_num⟩
  norm_num [normalize_score, get_max_score, findInGroups, pools6, alistGet?, pyMax]

/-- C6 amended: the stated property holds of the parsers, whose
_normalize_score maps min to 0 and max to 1 and stays within 0..1 on the
range (with the documented tie case when max = min); the aggregator's
MetricsCalculator.normalize_score instead divides by the largest criteria
key and violates normalize(min) = 0 whenever min is nonzero. -/
theorem claim_C6_parser_normalize (lo hi s : ℚ) :
    (lo < hi →
      normalize_score_range lo lo hi = 0 ∧
      normalize_score_range hi lo hi = 1 ∧
      (lo ≤ s → s ≤ hi →
        normalize_score_range s lo hi = (s - lo) / (hi - lo) ∧
        0 ≤ normalize_score_range s lo hi ∧ normalize_score_range s lo hi ≤ 1)) ∧
    (hi = lo → normalize_score_range s lo hi = if hi ≤ s then 1 else 0) := by
  constructor
  · intro hlt
    have hne : hi ≠ lo := ne_of_gt hlt
    have hpos : 0 < hi - lo := by linarith
    refine ⟨?_, ?_, ?_⟩
    · simp [normalize_score_range, hne]
    · simp [normalize_score_range, hne]
      exact div_self (ne_of_gt hpos)
    · intro h1 h2
      refine ⟨by simp [normalize_score_range, hne], ?_, ?_⟩
      · simp [normalize_score_range, hne]
        exact div_nonneg (by linarith) (le_of_lt hpos)
      · simp [normalize_score_range, hne]
        rw [div_le_one hpos]
        linarith
  · intro heq
    simp [normalize_score_range, heq]

/-- Witness for C6 amended at the range 0..10 and the in-range score 4. -/
theorem claim_C6_parser_normalize_witness :
    normalize_score_range 0 0 10 = 0 ∧ normalize_score_range 10 0 10 = 1 ∧
    normalize_score_range 4 0 10 = (4 - 0) / (10 - 0) ∧
    0 ≤ normalize_score_range 4 0 10 ∧ normalize_score_range 4 0 10 ≤ 1 ∧
    normalize_score_range 7 3 3 = 1 := by
  have h0 := (claim_C6_parser_normalize 0 10 4).1 (by norm_num)
  have h4 := h0.2.2 (by norm_num) (by norm_num)
  have h3 := (claim_C6_parser_normalize 3 3 7).2 rfl
  refine ⟨h0.1, h0.2.1, h4.1, h4.2.1, h4.2.2, ?_⟩
  rw [h3]
  norm_num

/-- The min fold never yields a farther point than the seed or any listed
point. -/
theorem minByDistFold_le (s : ℚ) : ∀ (ks : List ℚ) (a : ℚ),
    |minByDistFold s a ks - s| ≤ |a - s| ∧
      ∀ y ∈ ks, |minByDistFold s a ks - s| ≤ |y - s|
  | [], a => ⟨le_refl _, by simp⟩
  | y :: ks, a => by
    by_cases hlt : |y - s| < |a - s|
    · have hstep : minByDistFold s a (y :: ks) = minByDistFold s y ks := by
        simp [minByDistFold, hlt]
      obtain ⟨ih1, ih2⟩ := minByDistFold_le s ks y
      rw [hstep]
      exact ⟨ih1.trans hlt.le, fun z hz => by
        rcases List.mem_cons.mp hz with h | h
        · exact h ▸ ih1
        · exact ih2 z h⟩
    · have hstep : minByDistFold s a (y :: ks) = minByDistFold s a ks := by
        simp [minByDistFold, hlt]
      obtain ⟨ih1, ih2⟩ := minByDistFold_le s ks a
      rw [hstep]
      exact ⟨ih1, fun z hz => by
        rcases List.mem_cons.mp hz with h | h
        · exact h ▸ (ih1.trans (not_lt.mp hlt))
        · exact ih2 z h⟩

/-- The min fold picks the first minimizer: the seeded list splits around
the result, with every earlier element strictly farther and every later
element no closer. -/
theorem minByDistFold_decomp (s : ℚ) : ∀ (ks : List ℚ) (a : ℚ),
    ∃ l₁ l₂, a :: ks = l₁ ++ minByDistFold s a ks :: l₂ ∧
      (∀ y ∈ l₁, |minByDistFold s a ks - s| < |y - s|) ∧
      (∀ y ∈ l₂, |minByDistFold s a ks - s| ≤ |y - s|)
  | [], a => ⟨[], [], by simp [minByDistFold], by simp, by simp⟩
  | y :: ks, a => by
    by_cases hlt : |y - s| < |a - s|
    · have hstep : minByDistFold s a (y :: ks) = minByDistFold s y ks := by
        simp [minByDistFold, hlt]
      obtain ⟨l₁, l₂, hdec, h1, h2⟩ := minByDistFold_decomp s ks y
      refine ⟨a :: l₁, l₂, ?_, ?_, by rw [hstep]; exact h2⟩
      · rw [hstep, List.cons_append, ← hdec]
      · intro z hz
        rw [hstep]
        rcases List.mem_cons.mp hz with h | h
        · subst h
          exact lt_of_le_of_lt (minByDistFold_le s ks y).1 hlt
        · exact h1 z h
    · have hstep : minByDistFold s a (y :: ks) = minByDistFold s a ks := by
        simp [minByDistFold, hlt]
      obtain ⟨l₁, l₂, hdec, h1, h2⟩ := minByDistFold_decomp s ks a
      cases l₁ with
      | nil =>
        have hra : minByDistFold s a ks = a := by
          have := congrArg (fun l => l.head?) hdec
          simpa using this.symm
        refine ⟨[], y :: ks, by rw [hstep, hra]; simp, by simp, ?_⟩
        intro z hz
        rw [hstep]
        rcases List.mem_cons.mp hz with h | h
        · subst h
          rw [hra]
          exact not_lt.mp hlt
        · exact (minByDistFold_le s ks a).2 z h
      | cons b l₁t =>
        have hba : b = a := by
          have := congrArg (fun l => l.head?) hdec
          simpa using this.symm
        subst hba
        have hks : ks = l₁t ++ minByDistFold s b ks :: l₂ := by
          have := congrArg List.tail hdec
          simpa using this
        refine ⟨b :: y :: l₁t, l₂, ?_, ?_, by rw [hstep]; exact h2⟩
        · rw [hstep]
          conv_lhs => rw [hks]
          simp
        · intro z hz
          rw [hstep]
          have hstrict_b : |minByDistFold s b ks - s| < |b - s| :=
            h1 b (List.mem_cons_self b l₁t)
          rcases List.mem_cons.mp hz with h | h
          · exact h ▸ hstrict_b
          · rcases List.mem_cons.mp h with h | h
            · exact h ▸ lt_of_lt_of_le hstrict_b (not_lt.mp hlt)
            · exact h1 z (List.mem_cons_of_mem b h)

/-- C8 as stated is false: for criteria listed in the order 10, 0 and the
extracted in-range score 5, the distances tie and the parser snaps to 10,
the first criteria key in insertion order, not to the lower score 0. -/
theorem counter_C8_tie_not_lower :
    (parse_evaluation_response_atlas pools8 "t8" "M8_SCORE: 5").map
        (fun r => (r.raw_scores, r.validation_issues)) =
      .ok ([("m8", 10)], ["Score for m8 not in valid scores, using closest value"]) ∧
    |(10 : ℚ) - 5| = |(0 : ℚ) - 5| ∧ (10 : ℚ) ≠ 0 := by
  refine ⟨?_, by norm_num, by norm_num⟩
  simp [parse_evaluation_response_atlas, get_task_config, pools8, alistGet?, atlasStep,
    findInGroups, extract_score, scoreTag, pyUpper, searchScoreTag, startsWith, matchNumAt,
    digitsVal, isPySpace, validate_against_criteria, pyMinByDist, minByDistFold,
    validate_score_atlas, normalize_score_range, Except.map] <;> norm_num

/-- C8 amended: _validate_against_criteria passes exact criteria scores
through silently and otherwise snaps the raw extracted score (snapping
happens before range clamping in the atlas parser) to a criteria key of
minimal absolute distance, recording an issue; on ties Python min keeps the
key that appears first in the criteria insertion order (smallest indexOf),
not the lower score. -/
theorem claim_C8_criteria_snap (s : ℚ) (metric : String) (issues : List String)
    (k : ℚ) (ks : List ℚ) :
    (s ∈ k :: ks → validate_against_criteria s (k :: ks) metric issues = some (s, issues)) ∧
    (s ∉ k :: ks →
      validate_against_criteria s (k :: ks) metric issues =
        some (minByDistFold s k ks,
          issues ++ ["Score for " ++ metric ++ " not in valid scores, using closest value"]) ∧
      minByDistFold s k ks ∈ k :: ks ∧
      (∀ y ∈ k :: ks, |minByDistFold s k ks - s| ≤ |y - s|) ∧
      (∀ y ∈ k :: ks, |y - s| = |minByDistFold s k ks - s| →
        (k :: ks).indexOf (minByDistFold s k ks) ≤ (k :: ks).indexOf y)) := by
  constructor
  · intro h
    simp [validate_against_criteria, h]
  · intro h
    obtain ⟨l₁, l₂, hdec, h1, h2⟩ := minByDistFold_decomp s ks k
    have hmem : minByDistFold s k ks ∈ k :: ks := by
      rw [hdec]
      exact List.mem_append_right l₁ (List.mem_cons_self _ l₂)
    have hle : ∀ y ∈ k :: ks, |minByDistFold s k ks - s| ≤ |y - s| := by
      intro y hy
      rcases List.mem_cons.mp hy with hya | hyk
      · exact hya ▸ (minByDistFold_le s ks k).1
      · exact (minByDistFold_le s ks k).2 y hyk
    refine ⟨by simp [validate_against_criteria, h, pyMinByDist], hmem, hle, ?_⟩
    intro y hy htie
    have hnotl₁ : minByDistFold s k ks ∉ l₁ := by
      intro hm
      exact absurd (h1 _ hm) (lt_irrefl _)
    have hynotl₁ : y ∉ l₁ := by
      intro hm
      have := h1 y hm
      rw [htie] at this
      exact absurd this (lt_irrefl _)
    rw [hdec, List.indexOf_append_of_not_mem hnotl₁, List.indexOf_append_of_not_mem hynotl₁,
      List.indexOf_cons_self]
    exact Nat.add_le_add_left (Nat.zero_le _) _

/-- Witness for C8 amended: criteria keys 1, 3 and score 2 snap to 1, the
nearest (and first) key, with the issue recorded. -/
theorem claim_C8_criteria_snap_witness :
    validate_against_criteria 2 [1, 3] "w8" [] =
      some (1, ["Score for w8 not in valid scores, using closest value"]) ∧
    (1 : ℚ) ∈ ([1, 3] : List ℚ) ∧ |(1 : ℚ) - 2| ≤ |(3 : ℚ) - 2| := by
  have h := (claim_C8_criteria_snap 2 "w8" [] 1 [3]).2 (by norm_num)
  have hfold : minByDistFold 2 1 [3] = 1 := by norm_num [minByDistFold]
  refine ⟨?_, by norm_num, by norm_num⟩
  rw [h.1, hfold]
  simp

/-- mapE inversion: every output element comes from an input element. -/
theorem mapE_ok_mem {α β : Type} (f : α → Except String β) :
    ∀ (xs : List α) (ys : List β), mapE f xs = .ok ys → ∀ y ∈ ys, ∃ x ∈ xs, f x = .ok y
  | [], ys, h => by
    simp [mapE] at h
    subst h
    simp
  | x :: xs, ys, h => by
    intro y hy
    unfold mapE at h
    cases hfx : f x with
    | error e => rw [hfx] at h; exact absurd h (by simp)
    | ok b =>
      rw [hfx] at h
      cases hrest : mapE f xs with
      | error e => rw [hrest] at h; exact absurd h (by simp)
      | ok bs =>
        rw [hrest] at h
        have hys : ys = b :: bs := by
          cases h
          rfl
        subst hys
        rcases List.mem_cons.mp hy with hb | hb
        · exact ⟨x, List.mem_cons_self x xs, hb ▸ hfx⟩
        · obtain ⟨x2, hx2, hfx2⟩ := mapE_ok_mem f xs bs hrest y hb
          exact ⟨x2, List.mem_cons_of_mem x hx2, hfx2⟩

/-- The record aggregateMetric builds always has
weighted_score = normalized_score * weight and stores the weight. -/
theorem aggregateMetric_weighted (p : Pools) (evaluations : List (List (String × PyVal)))
    (w : ℚ) (m : String) (a : MetricAggregate)
    (h : aggregateMetric p evaluations w m = .ok a) :
    a.weighted_score = a.normalized_score * w ∧ a.weight = w := by
  unfold aggregateMetric at h
  cases hms : metricScores evaluations m with
  | error e => rw [hms] at h; exact absurd h (by simp)
  | ok scores =>
    rw [hms] at h
    dsimp only at h
    cases hf : iqrFilter scores with
    | error e => rw [hf] at h; exact absurd h (by simp)
    | ok filtered =>
      rw [hf] at h
      dsimp only at h
      cases hn : normalize_score p (match pyMedian filtered with | some m => m | none => 0) m with
      | error e => rw [hn] at h; exact absurd h (by simp)
      | ok normalized =>
        rw [hn] at h
        dsimp only at h
        cases h
        exact ⟨rfl, rfl⟩

theorem batch4_scores : metricScores batch4 "a4" = .ok [1] := by
  simp [metricScores, batch4, mapE, pyGetD, alistGet?, pyNumE]

theorem iqr4 : iqrFilter [1] = .ok [1] := by
  norm_num [iqrFilter, npPercentile, interpAt, pySorted, List.insertionSort,
    List.orderedInsert] <;> (try simp) <;> norm_num

theorem task4 : get_task_config pools4 "t4" =
    .ok { system_prompt := "sp", weightages := [("a4", 1)] } := by
  simp [get_task_config, pools4, alistGet?]

theorem agg4_eval : aggregate_scores pools4 batch4 "t4" = .ok ([("a4", agg4)], 1 / 3) := by
  have hmed : pyMedian [1] = some 1 := by norm_num [pyMedian, pySorted, List.insertionSort,
    List.orderedInsert]
  have hnorm : normalize_score pools4 1 "a4" = .ok (1 / 3) := by
    norm_num [normalize_score, get_max_score, findInGroups, pools4, alistGet?, pyMax]
  have hjust : batch4.map (fun e => pyGetD e "a4_justification" (PyVal.str "")) =
      [PyVal.str ""] := by simp [batch4, pyGetD, alistGet?]
  simp [aggregate_scores, task4, mapE, aggregateMetric, batch4_scores, iqr4, hmed, hnorm,
    hjust, Except.map, agg4]

/-- C4 as stated is false: the aggregate total for pools4/batch4 is 1/3
(a plain sum of weighted contributions, with no division by the weights of
the scored metrics), and Evaluator._calculate_final_score stores
round(1/3, 2) = 0.33 — the stored final_score is rounded, not unrounded. -/
theorem counter_C4_final_score_rounded :
    aggregate_scores pools4 batch4 "t4" = .ok ([("a4", agg4)], 1 / 3) ∧
    calculate_final_score ([("a4", agg4)], 1 / 3) = 33 / 100 ∧
    (33 / 100 : ℚ) ≠ 1 / 3 := by
  refine ⟨agg4_eval, ?_, by norm_num⟩
  norm_num [calculate_final_score, pyRound2, Int.floor_eq_iff]

/-- C4 amended: the aggregate total_weighted_score is the plain sum of
normalized_score * weight over every task metric (no division by the sum
of scored weights — each task metric always receives a score, 0-defaulted
when absent), and the stored final_score is round(total, 2); the unrounded
total remains only under metric_scores.total_weighted_score.  Only the
parser's per-sample total divides by a weight sum. -/
theorem claim_C4_total_weighted (p : Pools) (evaluations : List (List (String × PyVal)))
    (task : String) (entries : List (String × MetricAggregate)) (total : ℚ)
    (h : aggregate_scores p evaluations task = .ok (entries, total)) :
    calculate_final_score (entries, total) = pyRound2 total ∧
    total = (entries.map (fun kv => kv.2.normalized_score * kv.2.weight)).sum ∧
    ∀ kv ∈ entries, kv.2.weighted_score = kv.2.normalized_score * kv.2.weight := by
  have hmem : ∀ kv ∈ entries, kv.2.weighted_score = kv.2.normalized_score * kv.2.weight := by
    unfold aggregate_scores at h
    cases htc : get_task_config p task with
    | error e => rw [htc] at h; exact absurd h (by simp)
    | ok tc =>
      rw [htc] at h
      dsimp only at h
      cases hm : mapE (fun mw => (aggregateMetric p evaluations mw.2 mw.1).map
          (fun a => (mw.1, a))) tc.weightages with
      | error e => rw [hm] at h; exact absurd h (by simp)
      | ok es =>
        rw [hm] at h
        dsimp only at h
        have hes : es = entries := by cases h; rfl
        subst hes
        intro kv hkv
        obtain ⟨mw, _, hmw⟩ := mapE_ok_mem _ tc.weightages es hm kv hkv
        cases ha : aggregateMetric p evaluations mw.2 mw.1 with
        | error e => rw [ha] at hmw; exact absurd hmw (by simp [Except.map])
        | ok a =>
          rw [ha] at hmw
          simp only [Except.map] at hmw
          have hkva : kv = (mw.1, a) := by
            cases hmw
            rfl
          obtain ⟨h1, h2⟩ := aggregateMetric_weighted p evaluations mw.2 mw.1 a ha
          subst hkva
          simp [h1, h2]
  have htot : total = (entries.map (fun kv => kv.2.weighted_score)).sum := by
    unfold aggregate_scores at h
    cases htc : get_task_config p task with
    | error e => rw [htc] at h; exact absurd h (by simp)
    | ok tc =>
      rw [htc] at h
      dsimp only at h
      cases hm : mapE (fun mw => (aggregateMetric p evaluations mw.2 mw.1).map
          (fun a => (mw.1, a))) tc.weightages with
      | error e => rw [hm] at h; exact absurd h (by simp)
      | ok es =>
        rw [hm] at h
        dsimp only at h
        cases h
        rfl
  refine ⟨rfl, ?_, hmem⟩
  rw [htot]
  congr 1
  exact List.map_congr_left hmem

/-- Witness for C4 amended at pools4/batch4. -/
theorem claim_C4_total_weighted_witness :
    calculate_final_score ([("a4", agg4)], 1 / 3) = pyRound2 (1 / 3) ∧
    (1 / 3 : ℚ) = (([("a4", agg4)]).map (fun kv => kv.2.normalized_score * kv.2.weight)).sum := by
  have h := claim_C4_total_weighted pools4 batch4 "t4" [("a4", agg4)] (1 / 3) agg4_eval
  exact ⟨h.1, h.2.1⟩

/-- The sample variance is nonnegative whenever it is computed on more
than one value (the only way the code computes it). -/
theorem sampleVariance_nonneg (xs : List ℚ) (h : 1 < xs.length) : 0 ≤ sampleVariance xs := by
  unfold sampleVariance
  apply div_nonneg
  · apply List.sum_nonneg
    intro x hx
    obtain ⟨y, _, rfl⟩ := List.mem_map.mp hx
    positivity
  · have h2 : (2 : ℚ) ≤ (xs.length : ℚ) := by exact_mod_cast h
    linarith

/-- Every variance confVariances emits is nonnegative. -/
theorem confVariances_nonneg (p : Pools) (evals : List (List (String × PyVal)))
    (task : String) (vs : List ℚ) (h : confVariances p evals task = .ok vs) :
    ∀ v ∈ vs, 0 ≤ v := by
  unfold confVariances at h
  cases hm : get_metrics_for_task p task with
  | error e => rw [hm] at h; exact absurd h (by simp)
  | ok metrics =>
    rw [hm] at h
    dsimp only at h
    cases hs : mapE (metricScores evals) metrics with
    | error e => rw [hs] at h; exact absurd h (by simp)
    | ok scoreLists =>
      rw [hs] at h
      dsimp only at h
      have hvs : vs = (scoreLists.filter (fun l => decide (1 < l.length))).map sampleVariance := by
        cases h
        rfl
      subst hvs
      intro v hv
      obtain ⟨l, hl, rfl⟩ := List.mem_map.mp hv
      have hlen : 1 < l.length := by
        have := (List.mem_filter.mp hl).2
        exact of_decide_eq_true this
      exact sampleVariance_nonneg l hlen

/-- The mean of nonnegative values is nonnegative. -/
theorem pyMean_nonneg (vs : List ℚ) (h : ∀ v ∈ vs, 0 ≤ v) : 0 ≤ pyMean vs :=
  div_nonneg (List.sum_nonneg h) (Nat.cast_nonneg _)

theorem conf9a : confVariances pools9 batch9a "t9" = .ok [0] := by
  simp [confVariances, get_metrics_for_task, get_task_config, pools9, alistGet?, mapE,
    metricScores, pyGetD, pyNumE, batch9a, sampleVariance, pyMean]

theorem conf9b : confVariances pools9 batch9b "t9" = .ok [9 / 10000] := by
  simp [confVariances, get_metrics_for_task, get_task_config, pools9, alistGet?, mapE,
    metricScores, pyGetD, pyNumE, batch9b, sampleVariance, pyMean]
  norm_num

theorem metrics9 : get_metrics_for_task pools9 "t9" = .ok ["a9"] := by
  simp [get_metrics_for_task, get_task_config, pools9, alistGet?]

theorem max9 : mapE (get_max_score pools9) ["a9"] = .ok [10] := by
  simp [mapE, get_max_score, findInGroups, pools9, alistGet?, pyMax]

theorem calc9a : calculate_confidence_and_reliability pools9 batch9a "t9" [0] = .ok (1, 1) := by
  unfold calculate_confidence_and_reliability
  rw [conf9a]
  dsimp only
  rw [metrics9]
  dsimp only
  rw [max9]
  dsimp only
  simp [pyMax, pyMean]
  norm_num [pyRound2, Int.floor_eq_iff]

theorem calc9b :
    calculate_confidence_and_reliability pools9 batch9b "t9" [3 / 100] = .ok (1, 1) := by
  unfold calculate_confidence_and_reliability
  rw [conf9b]
  dsimp only
  rw [metrics9]
  dsimp only
  rw [max9]
  dsimp only
  simp [pyMax, pyMean]
  norm_num [pyRound2, Int.floor_eq_iff]

/-- C9 as stated is false: the reported confidence is rounded to two
decimals, so raising the mean per-metric variance from 0 to 9/10000 leaves
the reported confidence at 1.0 for both batches — it does not strictly
decrease. -/
theorem counter_C9_rounding_not_strict :
    IsSqrt 0 0 ∧ IsSqrt (9 / 10000) (3 / 100) ∧
    confVariances pools9 batch9a "t9" = .ok [0] ∧
    confVariances pools9 batch9b "t9" = .ok [9 / 10000] ∧
    pyMean [0] < pyMean [(9 : ℚ) / 10000] ∧
    calculate_confidence_and_reliability pools9 batch9a "t9" [0] = .ok (1, 1) ∧
    calculate_confidence_and_reliability pools9 batch9b "t9" [3 / 100] = .ok (1, 1) := by
  refine ⟨by norm_num [IsSqrt], by norm_num [IsSqrt], conf9a, conf9b, ?_, calc9a, calc9b⟩
  norm_num [pyMean]

/-- C9 amended: the unrounded confidence 1 / (1 + mean variance) strictly
decreases as the mean per-metric variance increases, everything else held
fixed; the reported value is pyRound2 of it, and rounding collapses
nearby variances to the same reported confidence, so the reported value is
only weakly decreasing. -/
theorem claim_C9_confidence_monotone (p : Pools) (task : String)
    (e1 e2 : List (List (String × PyVal))) (v1 v2 : List ℚ)
    (h1 : confVariances p e1 task = .ok v1) (h2 : confVariances p e2 task = .ok v2)
    (hne1 : v1 ≠ []) (hlt : pyMean v1 < pyMean v2) :
    1 / (1 + pyMean v2) < 1 / (1 + pyMean v1) ∧
    ∀ stds c r, calculate_confidence_and_reliability p e1 task stds = .ok (c, r) →
      c = pyRound2 (1 / (1 + pyMean v1)) := by
  have hm1 : 0 ≤ pyMean v1 := pyMean_nonneg v1 (confVariances_nonneg p e1 task v1 h1)
  constructor
  · exact one_div_lt_one_div_of_lt (by linarith) (by linarith)
  · intro stds c r hc
    unfold calculate_confidence_and_reliability at hc
    rw [h1] at hc
    dsimp only at hc
    have hie : v1.isEmpty = false := by
      cases v1 with
      | nil => exact absurd rfl hne1
      | cons a l => rfl
    rw [hie] at hc
    simp only [Bool.false_eq_true, if_false] at hc
    cases hm : get_metrics_for_task p task with
    | error e => rw [hm] at hc; exact absurd hc (by simp)
    | ok metrics =>
      rw [hm] at hc
      dsimp only at hc
      cases hmx : mapE (get_max_score p) metrics with
      | error e => rw [hmx] at hc; exact absurd hc (by simp)
      | ok maxima =>
        rw [hmx] at hc
        dsimp only at hc
        cases hpm : pyMax maxima with
        | error e => rw [hpm] at hc; exact absurd hc (by simp)
        | ok mx =>
          rw [hpm] at hc
          dsimp only at hc
          by_cases hz : mx = 0
          · rw [if_pos hz] at hc
            exact absurd hc (by simp)
          · rw [if_neg hz] at hc
            cases hc
            rfl

/-- Witness for C9 amended at the two concrete batches. -/
theorem claim_C9_confidence_monotone_witness :
    1 / (1 + pyMean [(9 : ℚ) / 10000]) < 1 / (1 + pyMean [(0 : ℚ)]) ∧
    (1 : ℚ) = pyRound2 (1 / (1 + pyMean [(0 : ℚ)])) := by
  have h := claim_C9_confidence_monotone pools9 "t9" batch9a batch9b [0] [9 / 10000]
    conf9a conf9b (by simp) (by norm_num [pyMean])
  exact ⟨h.1, h.2 [0] 1 1 calc9a⟩

theorem conf7 : confVariances pools7 batch7 "t7" = .ok [4] := by
  simp [confVariances, get_metrics_for_task, get_task_config, pools7, alistGet?, mapE,
    metricScores, pyGetD, pyNumE, batch7, sampleVariance, pyMean]
  norm_num

theorem metrics7 : get_metrics_for_task pools7 "t7" = .ok ["a7"] := by
  simp [get_metrics_for_task, get_task_config, pools7, alistGet?]

theorem max7 : mapE (get_max_score pools7) ["a7"] = .ok [5] := by
  simp [mapE, get_max_score, findInGroups, pools7, alistGet?, pyMax]
  norm_num

theorem calc7 :
    calculate_confidence_and_reliability pools7 batch7 "t7" [2] = .ok (1 / 5, 3 / 5) := by
  unfold calculate_confidence_and_reliability
  rw [conf7]
  dsimp only
  rw [metrics7]
  dsimp only
  rw [max7]
  dsimp only
  simp [pyMax, pyMean]
  norm_num [pyRound2, Int.floor_eq_iff]

/-- C7 as stated is false: for the metric of range 1..5 (width 4) with
criteria keys 1, 3, 5 and stdev 2, the code divides by
max_possible_std = get_max_score = 5 (the largest criteria key, not the
range width) and reports reliability 3/5, while the claimed formula
1 - 2 / (5 - 1) gives 1/2. -/
theorem counter_C7_ceiling_not_width :
    get_metrics_config pools7 "a7" =
      .ok { description := "d", score_range := some ⟨1, 5⟩,
            scoring_criteria := some [(1, "x"), (3, "y"), (5, "z")] } ∧
    IsSqrt (sampleVariance [1, 3, 5]) 2 ∧
    confVariances pools7 batch7 "t7" = .ok [4] ∧
    calculate_confidence_and_reliability pools7 batch7 "t7" [2] = .ok (1 / 5, 3 / 5) ∧
    pyRound2 (1 - 2 / (5 - 1)) = 1 / 2 ∧ (3 / 5 : ℚ) ≠ 1 / 2 := by
  refine ⟨by simp [get_metrics_config, findInGroups, pools7, alistGet?], ?_, conf7, calc7,
    ?_, by norm_num⟩
  · norm_num [IsSqrt, sampleVariance, pyMean]
  · norm_num [pyRound2, Int.floor_eq_iff]

/-- C7 amended: the reported reliability is round(1 - mean stdev / mx, 2)
where mx is pyMax of the get_max_score values of the task's metrics — the
largest maximum criteria score, not the largest (max - min) range width —
and the reported value is rounded to 2 decimals. -/
theorem claim_C7_reliability (p : Pools) (task : String)
    (evals : List (List (String × PyVal))) (vars stds : List ℚ)
    (metrics : List String) (maxima : List ℚ) (mx c r : ℚ)
    (hv : confVariances p evals task = .ok vars)
    (hsq : List.Forall₂ IsSqrt vars stds)
    (hm : get_metrics_for_task p task = .ok metrics)
    (hmax : mapE (get_max_score p) metrics = .ok maxima)
    (hmx : pyMax maxima = .ok mx)
    (hcr : calculate_confidence_and_reliability p evals task stds = .ok (c, r)) :
    mx ≠ 0 ∧
    r = pyRound2 (1 - (if stds.isEmpty then 0
      else stds.sum / (stds.length : ℚ)) / mx) := by
  unfold calculate_confidence_and_reliability at hcr
  rw [hv] at hcr
  dsimp only at hcr
  rw [hm] at hcr
  dsimp only at hcr
  rw [hmax] at hcr
  dsimp only at hcr
  rw [hmx] at hcr
  dsimp only at hcr
  by_cases hz : mx = 0
  · rw [if_pos hz] at hcr
    exact absurd hcr (by simp)
  · rw [if_neg hz] at hcr
    cases hcr
    exact ⟨hz, rfl⟩

/-- Witness for C7 amended at pools7/batch7 with stdev list [2]. -/
theorem claim_C7_reliability_witness :
    (5 : ℚ) ≠ 0 ∧
    (3 / 5 : ℚ) = pyRound2 (1 - (if ([2] : List ℚ).isEmpty then 0
      else ([2] : List ℚ).sum / ((([2] : List ℚ).length : ℕ) : ℚ)) / 5) := by
  have hsq : List.Forall₂ IsSqrt [4] [2] :=
    List.Forall₂.cons (by norm_num [IsSqrt]) List.Forall₂.nil
  exact claim_C7_reliability pools7 "t7" batch7 [4] [2] ["a7"] [5] 5 (1 / 5) (3 / 5)
    conf7 hsq metrics7 max7 (by simp [pyMax]) calc7

/-- mapE preserves list length on success. -/
theorem mapE_ok_length {α β : Type} (f : α → Except String β) :
    ∀ (xs : List α) (ys : List β), mapE f xs = .ok ys → ys.length = xs.length
  | [], ys, h => by
    simp [mapE] at h
    subst h
    rfl
  | x :: xs, ys, h => by
    unfold mapE at h
    cases hfx : f x with
    | error e => rw [hfx] at h; exact absurd h (by simp)
    | ok b =>
      rw [hfx] at h
      cases hrest : mapE f xs with
      | error e => rw [hrest] at h; exact absurd h (by simp)
      | ok bs =>
        rw [hrest] at h
        have hys : ys = b :: bs := by cases h; rfl
        subst hys
        simp [mapE_ok_length f xs bs hrest]

/-- A string of the shape m + "_score" ends in the character e, so it
differs from every result-dict key that ends in s. -/
theorem append_score_ne (m k : String) (hk : k.data.getLast? = some 's') :
    m ++ "_score" ≠ k := by
  intro h
  have hd := congrArg String.data h
  rw [String.data_append] at hd
  have h1 : (m.data ++ "_score".data).getLast? = some 'e' := by
    rw [List.getLast?_append_of_ne_nil _ (by decide)]
    decide
  rw [hd, hk] at h1
  exact absurd h1 (by decide)

/-- Looking up the flat key m + "_score" in a utils parser result dict
always falls through to the supplied default. -/
theorem toDict_get (u : UtilsResult) (m : String)
    (hm : m ++ "_score" ≠ "total_weighted_score") :
    pyGetD (UtilsResult.toDict u) (m ++ "_score") (PyVal.num 0) = PyVal.num 0 := by
  have h1 := append_score_ne m "raw_scores" (by decide)
  have h2 := append_score_ne m "normalized_scores" (by decide)
  have h3 := append_score_ne m "validation_issues" (by decide)
  have h4 := append_score_ne m "justifications" (by decide)
  simp [UtilsResult.toDict, pyGetD, alistGet?, Ne.symm h1, Ne.symm h2, Ne.symm h3,
    Ne.symm h4, Ne.symm hm]

/-- When every dict lets the flat score key fall through to the default,
the extracted score list is all zeros. -/
theorem metricScores_const_zero (m : String) :
    ∀ (ds : List (List (String × PyVal))),
      (∀ d ∈ ds, pyGetD d (m ++ "_score") (PyVal.num 0) = PyVal.num 0) →
      metricScores ds m = .ok (List.replicate ds.length 0)
  | [], _ => by simp [metricScores, mapE]
  | d :: ds, h => by
    have hd := h d (List.mem_cons_self d ds)
    have hrest := metricScores_const_zero m ds (fun x hx => h x (List.mem_cons_of_mem d hx))
    unfold metricScores at hrest ⊢
    unfold mapE
    rw [hd, hrest]
    simp [pyNumE, List.replicate_succ]

/-- C2: every batch Evaluator.evaluate assembles consists of the utils
parser result dicts, whose only top-level keys are raw_scores,
normalized_scores, validation_issues, justifications and
total_weighted_score; the flat key metric + "_score" that aggregate_scores
and calculate_confidence_and_reliability look up is absent from each of
them (for any metric not literally named "total_weighted"), so the
extracted score list is the .get default 0 for every sample, whatever the
parser extracted. -/
theorem claim_C2_flat_key_default (p : Pools) (justFn : String → String → String)
    (task : String) (responses : List String) (evals : List (List (String × PyVal)))
    (m : String) (hm : m ++ "_score" ≠ "total_weighted_score")
    (hb : evaluateBatch p justFn task responses = .ok evals) :
    metricScores evals m = .ok (List.replicate responses.length 0) := by
  have hb2 : mapE (fun r => (parse_evaluation_response_utils p justFn task r).map
      UtilsResult.toDict) responses = .ok evals := hb
  have hlen : evals.length = responses.length := mapE_ok_length _ responses evals hb2
  rw [← hlen]
  apply metricScores_const_zero
  intro d hd
  obtain ⟨r, _, hf⟩ := mapE_ok_mem _ responses evals hb2 d hd
  cases hp : parse_evaluation_response_utils p justFn task r with
  | error e => rw [hp] at hf; exact absurd hf (by simp [Except.map])
  | ok u =>
    rw [hp] at hf
    simp only [Except.map] at hf
    have hdu : d = UtilsResult.toDict u := by cases hf; rfl
    rw [hdu]
    exact toDict_get u m hm

/-- Witness for C2: the parser extracts 7 from "COHERENCE_SCORE: 7" and
nests it under raw_scores, yet the aggregator-side extraction sees only
the default 0. -/
theorem claim_C2_flat_key_default_witness :
    evaluateBatch pools2 (fun _ _ => "") "t2" ["COHERENCE_SCORE: 7"] = .ok batch2 ∧
    metricScores batch2 "coherence" = .ok [0] := by
  have hp : parse_evaluation_response_utils pools2 (fun _ _ => "") "t2" "COHERENCE_SCORE: 7" =
      .ok { raw_scores := [("coherence", 7)], normalized_scores := [("coherence", 7 / 10)],
            validation_issues := [], justifications := [("coherence", "")],
            total_weighted_score := 7 / 10 } := by
    simp [parse_evaluation_response_utils, get_task_config, pools2, alistGet?, utilsStep,
      findInGroups, extract_score, scoreTag, pyUpper, searchScoreTag, startsWith, matchNumAt,
      digitsVal, isPySpace, validate_score_utils, normalize_score_range] <;> norm_num
  have hb : evaluateBatch pools2 (fun _ _ => "") "t2" ["COHERENCE_SCORE: 7"] = .ok batch2 := by
    simp [evaluateBatch, mapE, hp, Except.map, UtilsResult.toDict, batch2]
  refine ⟨hb, ?_⟩
  have h := claim_C2_flat_key_default pools2 (fun _ _ => "") "t2" ["COHERENCE_SCORE: 7"]
    batch2 "coherence" (by decide) hb
  simpa using h

theorem startsWith_append : ∀ (t r : List Char), startsWith t (t ++ r) = true
  | [], _ => rfl
  | c :: t, r => by simp [startsWith, startsWith_append t r]

/-- When the tag matches at the head and a number follows, the leftmost
search succeeds there. -/
theorem searchScoreTag_found (tag s : List Char) (h : startsWith tag s = true) (q : ℚ)
    (hm : matchNumAt (s.drop tag.length) = some q) : searchScoreTag tag s = some q := by
  cases s with
  | nil =>
    cases tag with
    | nil => simp [matchNumAt, List.dropWhile] at hm
    | cons c t => simp [startsWith] at h
  | cons c rest => simp [searchScoreTag, h, hm]

/-- A digit character is not regex whitespace. -/
theorem isDigit_not_space (c : Char) (h : c.isDigit = true) : isPySpace c = false := by
  unfold isPySpace
  simp only [Bool.or_eq_false_iff, beq_eq_false_iff_ne]
  refine ⟨⟨⟨⟨⟨?_, ?_⟩, ?_⟩, ?_⟩, ?_⟩, ?_⟩ <;>
    (intro he; subst he; exact absurd h (by decide))

/-- takeWhile over an all-true prefix followed by a failing character. -/
theorem takeWhile_all_append (p : Char → Bool) :
    ∀ (l1 : List Char) (c0 : Char) (l2 : List Char),
      (∀ c ∈ l1, p c = true) → p c0 = false →
      (l1 ++ c0 :: l2).takeWhile p = l1
  | [], c0, l2, _, h0 => by simp [List.takeWhile, h0]
  | c :: l1, c0, l2, h, h0 => by
    have hc := h c (List.mem_cons_self c l1)
    simp [List.takeWhile_cons, hc,
      takeWhile_all_append p l1 c0 l2 (fun x hx => h x (List.mem_cons_of_mem c hx)) h0]

/-- The regex tail accepts one space, then the digit literal, then the
newline, yielding the literal value. -/
theorem matchNumAt_space_digits (ds : List Char) (hne : ds ≠ [])
    (hdig : ∀ c ∈ ds, c.isDigit = true) :
    matchNumAt (' ' :: (ds ++ ['\n'])) = some ((digitsVal ds : ℚ)) := by
  have hdw : List.dropWhile isPySpace (' ' :: (ds ++ ['\n'])) = ds ++ ['\n'] := by
    cases ds with
    | nil => contradiction
    | cons d dsr =>
      have hd : isPySpace d = false :=
        isDigit_not_space d (hdig d (List.mem_cons_self d dsr))
      simp [List.dropWhile, hd, show isPySpace ' ' = true from rfl]
  have htw : (ds ++ ['\n']).takeWhile Char.isDigit = ds :=
    takeWhile_all_append Char.isDigit ds '\n' [] hdig (by decide)
  have hie : ds.isEmpty = false := by
    cases ds with
    | nil => contradiction
    | cons d dsr => rfl
  unfold matchNumAt
  rw [hdw]
  dsimp only
  rw [htw, hie]
  simp [List.drop_left]

/-- The data of the injected single-metric response splits as the score
tag followed by one space, the digit literal, and a newline. -/
theorem injectedResponse_single_data (m : String) (ds : List Char) :
    (injectedResponse [(m, ds)]).data = scoreTag m ++ (' ' :: (ds ++ ['\n'])) := by
  have h1 : "_SCORE: ".data = "_SCORE:".data ++ [' '] := by decide
  simp [injectedResponse, scoreTag, String.join, String.data_append, h1, List.append_assoc]

theorem counter_C10_extract :
    extract_score (injectedResponse [("m10", ['2'])]) "m10" = 2 := by decide

/-- C10 as stated is false: injecting the in-range score 2 into the exact
tag template of a metric whose criteria keys are 1, 3, 5 and parsing back
yields 1 (the snapped nearest criteria key), not the injected 2. -/
theorem counter_C10_round_trip_snap :
    (0 : ℚ) ≤ 2 ∧ (2 : ℚ) ≤ 10 ∧
    injectedResponse [("m10", ['2'])] = "M10_SCORE: 2\n" ∧
    (parse_evaluation_response_atlas pools10 "t10"
        (injectedResponse [("m10", ['2'])])).map (fun r => r.raw_scores) =
      .ok [("m10", 1)] ∧ (1 : ℚ) ≠ 2 := by
  refine ⟨by norm_num, by norm_num, by decide, ?_, by norm_num⟩
  simp [parse_evaluation_response_atlas, get_task_config, pools10, alistGet?, atlasStep,
    findInGroups, counter_C10_extract, validate_against_criteria, pyMinByDist, minByDistFold,
    validate_score_atlas, normalize_score_range, Except.map] <;> norm_num

/-- C10 amended: for a single-metric rubric whose metric defines no
scoring_criteria, rendering the output tag template with any in-range
nonnegative digit-literal score injected and parsing the result reproduces
exactly the injected score.  With scoring_criteria present the parser
snaps non-criteria scores away, and a metric whose tag occurs inside an
earlier tag line can capture the wrong line, so the general claim fails. -/
theorem claim_C10_round_trip (p : Pools) (task sp m d : String) (w lo hi : ℚ)
    (ds : List Char)
    (htask : get_task_config p task = .ok { system_prompt := sp, weightages := [(m, w)] })
    (hcfg : findInGroups p.metric_groups m =
      some { description := d, score_range := some ⟨lo, hi⟩, scoring_criteria := none })
    (hds : ds ≠ []) (hdig : ∀ c ∈ ds, c.isDigit = true)
    (hlo : lo ≤ (digitsVal ds : ℚ)) (hhi : (digitsVal ds : ℚ) ≤ hi) :
    (parse_evaluation_response_atlas p task (injectedResponse [(m, ds)])).map
        (fun r => r.raw_scores) = .ok [(m, (digitsVal ds : ℚ))] := by
  have hsearch : searchScoreTag (scoreTag m) (injectedResponse [(m, ds)]).data =
      some ((digitsVal ds : ℚ)) := by
    rw [injectedResponse_single_data]
    apply searchScoreTag_found
    · exact startsWith_append _ _
    · rw [List.drop_left]
      exact matchNumAt_space_digits ds hds hdig
  have hex : extract_score (injectedResponse [(m, ds)]) m = (digitsVal ds : ℚ) := by
    simp [extract_score, hsearch]
  simp only [parse_evaluation_response_atlas, htask, List.foldl, atlasStep, hcfg, hex,
    Option.getD]
  simp [validate_score_atlas, not_lt.mpr hlo, not_lt.mpr hhi, Except.map]

/-- Witness for C10 amended: the digit literal 7 round-trips through the
criteria-free metric of range 0..10. -/
theorem claim_C10_round_trip_witness :
    (parse_evaluation_response_atlas pools10w "t10w"
        (injectedResponse [("m10w", ['7'])])).map (fun r => r.raw_scores) =
      .ok [("m10w", 7)] := by
  have h7 : digitsVal ['7'] = 7 := rfl
  have h := claim_C10_round_trip pools10w "t10w" "sp" "m10w" "d" 1 0 10 ['7']
    (by simp [get_task_config, pools10w, alistGet?])
    (by simp [findInGroups, pools10w, alistGet?])
    (by simp) (by decide) (by rw [h7]; norm_num) (by rw [h7]; norm_num)
  rw [h7] at h
  exact_mod_cast h

theorem getD_eq_get (l : List ℚ) (i : ℕ) (h : i < l.length) : l.getD i 0 = l.get ⟨i, h⟩ := by
  simp [List.getD_eq_getElem?_getD, List.getElem?_eq_getElem h]

theorem sorted_getD_mono (l : List ℚ) (hs : List.Sorted (· ≤ ·) l) (i j : ℕ)
    (hij : i ≤ j) (hj : j < l.length) : l.getD i 0 ≤ l.getD j 0 := by
  have hi : i < l.length := lt_of_le_of_lt hij hj
  rw [getD_eq_get l i hi, getD_eq_get l j hj]
  exact hs.rel_get_of_le hij

theorem getD_mem (l : List ℚ) (i : ℕ) (h : i < l.length) : l.getD i 0 ∈ l := by
  rw [getD_eq_get l i h]
  exact l.get_mem i h

theorem floorNat_cast (x : ℚ) (hx : 0 ≤ x) :
    (((Int.floor x).toNat : ℕ) : ℚ) = ((Int.floor x : ℤ) : ℚ) := by
  have hfnn : 0 ≤ ⌊x⌋ := Int.floor_nonneg.mpr hx
  exact_mod_cast congrArg (fun z : ℤ => (z : ℚ)) (Int.toNat_of_nonneg hfnn)

theorem floorNat_le (x : ℚ) (hx : 0 ≤ x) : (((Int.floor x).toNat : ℕ) : ℚ) ≤ x := by
  rw [floorNat_cast x hx]
  exact Int.floor_le x

theorem lt_floorNat_add_one (x : ℚ) (hx : 0 ≤ x) :
    x < (((Int.floor x).toNat : ℕ) : ℚ) + 1 := by
  rw [floorNat_cast x hx]
  exact Int.lt_floor_add_one x

/-- C1, what actually holds of the code: the 1.5-IQR filter of
aggregate_scores can never discard all of a nonempty score list — the
order statistic at the Q3 rank always lies inside the fences — so the
degenerate case the claim legislates for is unreachable.  (The code's
guard for it, metrics.py line 80, would silently score the metric 0 and
aggregate_scores maintains no validation-issue list at all, contradicting
the mandated fallback-plus-issue policy; see the claim record.) -/
theorem claim_C1_filter_never_empties (xs : List ℚ) (hne : xs ≠ []) (fs : List ℚ)
    (h : iqrFilter xs = .ok fs) : fs ≠ [] := by
  obtain ⟨x0, xr, rfl⟩ : ∃ y ys, xs = y :: ys := by
    cases xs with
    | nil => exact absurd rfl hne
    | cons y ys => exact ⟨y, ys, rfl⟩
  have hif : iqrFilter (x0 :: xr) =
      .ok ((x0 :: xr).filter (fun v =>
        decide (interpAt (pySorted (x0 :: xr)) (25 * (((x0 :: xr).length : ℚ) - 1) / 100) -
            1.5 * (interpAt (pySorted (x0 :: xr)) (75 * (((x0 :: xr).length : ℚ) - 1) / 100) -
              interpAt (pySorted (x0 :: xr)) (25 * (((x0 :: xr).length : ℚ) - 1) / 100)) ≤ v) &&
        decide (v ≤ interpAt (pySorted (x0 :: xr)) (75 * (((x0 :: xr).length : ℚ) - 1) / 100) +
            1.5 * (interpAt (pySorted (x0 :: xr)) (75 * (((x0 :: xr).length : ℚ) - 1) / 100) -
              interpAt (pySorted (x0 :: xr)) (25 * (((x0 :: xr).length : ℚ) - 1) / 100))))) := rfl
  rw [hif] at h
  injection h with h2
  subst h2
  set s := pySorted (x0 :: xr) with hsdef
  set n := (x0 :: xr).length with hndef
  set p1 : ℚ := 25 * ((n : ℚ) - 1) / 100 with hp1def
  set p3 : ℚ := 75 * ((n : ℚ) - 1) / 100 with hp3def
  set q1 : ℚ := interpAt s p1 with hq1def
  set q3 : ℚ := interpAt s p3 with hq3def
  set i1 : ℕ := (Int.floor p1).toNat with hi1def
  set i3 : ℕ := (Int.floor p3).toNat with hi3def
  have hn1 : 1 ≤ n := by rw [hndef]; simp
  have hnq : (1 : ℚ) ≤ (n : ℚ) := by exact_mod_cast hn1
  have hnm1 : (0 : ℚ) ≤ (n : ℚ) - 1 := by linarith
  have hp1nn : 0 ≤ p1 := by rw [hp1def]; positivity
  have hp3nn : 0 ≤ p3 := by rw [hp3def]; positivity
  have hp31 : p3 = 3 * p1 := by rw [hp1def, hp3def]; ring
  have hp13 : p1 ≤ p3 := by rw [hp31]; linarith
  have hslen : s.length = n := by
    rw [hsdef, hndef]
    exact (List.perm_insertionSort _ _).length_eq
  have hsorted : List.Sorted (· ≤ ·) s := by
    rw [hsdef]
    exact List.sorted_insertionSort _ _
  have hi1le3 : i1 ≤ i3 := by
    rw [hi1def, hi3def]
    exact Int.toNat_le_toNat (Int.floor_le_floor hp13)
  have hp3le : p3 ≤ (n : ℚ) - 1 := by rw [hp3def]; nlinarith
  have hi3le : i3 ≤ n - 1 := by
    have hfl : ⌊p3⌋ ≤ ⌊((n : ℚ) - 1)⌋ := Int.floor_le_floor hp3le
    have hfc : ⌊((n : ℚ) - 1)⌋ = (n : ℤ) - 1 := by
      have hcast : ((n : ℚ) - 1) = (((n : ℤ) - 1 : ℤ) : ℚ) := by push_cast; ring
      rw [hcast, Int.floor_intCast]
    rw [hi3def]
    have := Int.toNat_le_toNat (hfc ▸ hfl)
    omega
  have hi3lt : i3 < n := by omega
  have hi3s : i3 < s.length := by omega
  -- interpolation endpoints
  have hq1x : q1 = s.getD i1 0 +
      (p1 - (i1 : ℚ)) * (s.getD (min (i1 + 1) (s.length - 1)) 0 - s.getD i1 0) := by
    rw [hq1def, hi1def]
    rfl
  have hq3x : q3 = s.getD i3 0 +
      (p3 - (i3 : ℚ)) * (s.getD (min (i3 + 1) (s.length - 1)) 0 - s.getD i3 0) := by
    rw [hq3def, hi3def]
    rfl
  have hf1lo : (i1 : ℚ) ≤ p1 := by rw [hi1def]; exact floorNat_le p1 hp1nn
  have hf1hi : p1 < (i1 : ℚ) + 1 := by rw [hi1def]; exact lt_floorNat_add_one p1 hp1nn
  have hf3lo : (i3 : ℚ) ≤ p3 := by rw [hi3def]; exact floorNat_le p3 hp3nn
  have hf3hi : p3 < (i3 : ℚ) + 1 := by rw [hi3def]; exact lt_floorNat_add_one p3 hp3nn
  have hd3 : s.getD i3 0 ≤ s.getD (min (i3 + 1) (s.length - 1)) 0 := by
    apply sorted_getD_mono s hsorted
    · omega
    · omega
  have hq3ge : s.getD i3 0 ≤ q3 := by
    rw [hq3x]
    nlinarith [sub_nonneg.mpr hd3, sub_nonneg.mpr hf3lo]
  -- the witness element is within both fences
  have hbounds : q1 - 1.5 * (q3 - q1) ≤ s.getD i3 0 ∧ s.getD i3 0 ≤ q3 + 1.5 * (q3 - q1) := by
    rcases lt_or_eq_of_le hi1le3 with hlt | heq
    · -- strictly smaller floor: q1 is below the witness, and q1 ≤ q3
      have hi1s : i1 < s.length := by omega
      have hd1 : s.getD i1 0 ≤ s.getD (min (i1 + 1) (s.length - 1)) 0 := by
        apply sorted_getD_mono s hsorted
        · omega
        · omega
      have hq1hi : q1 ≤ s.getD (min (i1 + 1) (s.length - 1)) 0 := by
        rw [hq1x]
        nlinarith [sub_nonneg.mpr hd1, sub_nonneg.mpr hf1lo]
      have hmin3 : s.getD (min (i1 + 1) (s.length - 1)) 0 ≤ s.getD i3 0 := by
        apply sorted_getD_mono s hsorted
        · omega
        · omega
      have hq1le : q1 ≤ s.getD i3 0 := le_trans hq1hi hmin3
      have hq13 : q1 ≤ q3 := le_trans hq1le hq3ge
      constructor
      · linarith
      · linarith
    · -- same floor: both quartiles interpolate in the same gap
      rw [← heq] at hq3x hq3ge hd3 ⊢
      have hgap : q3 - q1 = (p3 - p1) * (s.getD (min (i1 + 1) (s.length - 1)) 0 -
          s.getD i1 0) := by
        rw [hq1x, hq3x]
        ring
      have hdnn : 0 ≤ s.getD (min (i1 + 1) (s.length - 1)) 0 - s.getD i1 0 :=
        sub_nonneg.mpr hd3
      have hi1nn : (0 : ℚ) ≤ (i1 : ℚ) := by positivity
      constructor
      · rw [hgap, hq1x]
        nlinarith [mul_nonneg hp1nn hdnn, mul_nonneg hi1nn hdnn]
      · have hiqr : 0 ≤ q3 - q1 := by
          rw [hgap]
          exact mul_nonneg (by linarith) hdnn
        linarith
  have hmem : s.getD i3 0 ∈ x0 :: xr := by
    have hin : s.getD i3 0 ∈ s := getD_mem s i3 hi3s
    rw [hsdef] at hin
    exact (List.perm_insertionSort (· ≤ ·) (x0 :: xr)).mem_iff.mp hin
  apply List.ne_nil_of_mem (a := s.getD i3 0)
  apply List.mem_filter.mpr
  refine ⟨hmem, ?_⟩
  simp only [Bool.and_eq_true, decide_eq_true_eq]
  exact hbounds

/-- Witness for C1 at the IQR scenario list. -/
theorem claim_C1_filter_never_empties_witness :
    iqrFilter [23, 24, 22, 25, 15] = .ok [23, 24, 22, 25] ∧
    ([23, 24, 22, 25] : List ℚ) ≠ [] := by
  have h := claim_C1_filter_never_empties [23, 24, 22, 25, 15] (by simp)
    [23, 24, 22, 25] iqr3
  exact ⟨iqr3, h⟩

end Atlas
